import Mathlib

/-!
Verification of the flight-reliability dashboard core
(src/app/streamlit/app.py): table normalization, selection filtering,
metrics computation and the hourly aggregation, shallowly embedded as
Lean functions over lists of records.

Conventions of the embedding:
- A polars column value that can be null is an Option.
- Python integer floor division and modulo with the positive divisors
  used here (100, 60) coincide with Lean Int division / and %.
- Arrival delays are integer minutes (Option Int); derived averages
  and percentages are exact rationals.
- polars comparisons propagate null, polars sum and mean skip nulls,
  and group_by produces one group per distinct key (null keys form a
  group of their own); sort places null first.
- Python round(x, 1) rounds half to even; roundHalfEven below models
  it exactly on rationals.
- Exact rational values are built with frac (Rat.divInt), so a
  quotient such as on_time / n * 100 is written as the equal exact
  fraction frac (100 * on_time) n; the lemma frac_eq_div relates the
  two spellings.
-/

namespace FlightReliability

/-- One row of the source flight-records table, with the columns used
by the dashboard.  Nullable numeric columns are Options. -/
structure Row where
  FlightDate : String
  Operating_Airline : String
  Flight_Number_Operating_Airline : Nat
  Origin : String
  Dest : String
  CRSDepTime : Option Int
  DepTime : Option Int
  CRSArrTime : Option Int
  ArrTime : Option Int
  ArrDelayMinutes : Option Int
  Cancelled : Bool
deriving DecidableEq, Repr

/-- Embeds hhmm_to_minutes from load_data: (s // 100) * 60 + (s % 100).
Lean / and % on Int with the positive divisors 100 and 60 agree with
Python floor division and modulo. -/
def hhmm_to_minutes (s : Int) : Int :=
  (s / 100) * 60 + s % 100

/-- A normalized row: the source row plus the derived columns added by
load_data.  OnTime embeds the Int8 column (ArrDelayMinutes <= 15):
a null delay gives a null comparison, hence Option Bool. -/
structure NRow extends Row where
  CRSDepMin : Option Int
  DepMin : Option Int
  CRSArrMin : Option Int
  ArrMin : Option Int
  OnTime : Option Bool
  CancelledFlag : Bool
  DepHour : Option Int
deriving DecidableEq, Repr

/-- The derivation load_data applies to one row: map_elements skips
nulls, so each derived column is an Option.map of its source column. -/
def normalizeRow (r : Row) : NRow :=
  { toRow := r
    CRSDepMin := r.CRSDepTime.map hhmm_to_minutes
    DepMin := r.DepTime.map hhmm_to_minutes
    CRSArrMin := r.CRSArrTime.map hhmm_to_minutes
    ArrMin := r.ArrTime.map hhmm_to_minutes
    OnTime := r.ArrDelayMinutes.map (fun d => decide (d ≤ 15))
    CancelledFlag := r.Cancelled
    DepHour := (r.CRSDepTime.map hhmm_to_minutes).map (fun m => m / 60) }

/-- Embeds the normalization pass of load_data over a whole table
(the with_columns calls, applied row by row). -/
def load_data (rows : List Row) : List NRow :=
  rows.map normalizeRow

/-- Embeds filter_df: string-keyed dispatch on the selection mode,
with the widget selections passed explicitly.  The final catch-all
branch returns the table unchanged, exactly as the source does. -/
def filter_df (mode orig dest carrier flight : String) (df : List NRow) : List NRow :=
  if mode = "airport" then
    df.filter (fun r => r.Origin == orig)
  else if mode = "route" then
    df.filter (fun r => r.Origin == orig && r.Dest == dest)
  else if mode = "airline_at_airport" then
    df.filter (fun r => r.Origin == orig && r.Operating_Airline == carrier)
  else if mode = "flight" then
    df.filter (fun r => r.Operating_Airline == flight.take 2
      && toString r.Flight_Number_Operating_Airline == flight.drop 2)
  else df

/-- The exact rational a / b, via Rat.divInt. -/
def frac (a b : Int) : Rat :=
  Rat.divInt a b

/-- Python round(x, 0) as an integer: round half to even.  Since
q.den is positive, q.num / q.den and q.num % q.den are the floor and
the fractional remainder of q, and the remainder is compared with one
half by cross-multiplication. -/
def roundHalfEven (q : Rat) : Int :=
  let d : Int := (q.den : Int)
  let f : Int := q.num / d
  let rem : Int := q.num % d
  if 2 * rem < d then f
  else if 2 * rem > d then f + 1
  else if f % 2 = 0 then f else f + 1

/-- Python round(x, 1) on rationals: scale by ten exactly, round half
to even, and divide back by ten. -/
def round1 (q : Rat) : Rat :=
  frac (roundHalfEven (frac (q.num * 10) (q.den : Int))) 10

/-- Count of true entries of a Bool list; embeds the polars sum of an
Int8 0/1 column after nulls are skipped. -/
def countTrue (l : List Bool) : Nat :=
  (l.filter (fun b => b)).length

/-- polars mean of an integer column with nulls already skipped: none
on an empty list, else the exact rational sum over length. -/
def meanQ (l : List Int) : Option Rat :=
  if l = [] then none else some (frac l.sum (l.length : Int))

/-- The arrival-delay values present in a subset: the delay column
with nulls dropped, as polars sum and mean see it. -/
def delaysOf (fdf : List NRow) : List Int :=
  fdf.filterMap (fun r => r.ArrDelayMinutes)

/-- The dictionary compute_metrics returns. -/
structure Metrics where
  n : Nat
  on_time_pct : Option Rat
  avg_delay : Option Rat
  cancel_rate : Option Rat
deriving DecidableEq, Repr

/-- Embeds compute_metrics: on the empty table all three rates are
none; otherwise OnTime.sum counts the rows whose OnTime is true (nulls
skipped), CancelledFlag.sum counts cancelled rows, and the delay mean
skips nulls and is none when every delay is null.  The source writes
round(on_time / n * 100, 1); here the argument is the equal exact
fraction frac (100 * on_time) n, and likewise for cancel_rate. -/
def compute_metrics (fdf : List NRow) : Metrics :=
  if fdf.length = 0 then
    { n := 0, on_time_pct := none, avg_delay := none, cancel_rate := none }
  else
    let on_time : Int := (countTrue (fdf.filterMap (fun r => r.OnTime)) : Int)
    let cancels : Int := ((fdf.filter (fun r => r.CancelledFlag)).length : Int)
    { n := fdf.length
      on_time_pct := some (round1 (frac (100 * on_time) (fdf.length : Int)))
      avg_delay := (meanQ (fdf.filterMap (fun r => r.ArrDelayMinutes))).map round1
      cancel_rate := some (round1 (frac (100 * cancels) (fdf.length : Int))) }

/-- One output row of the hour_stats aggregation. -/
structure HourRow where
  DepHour : Option Int
  flights_n : Nat
  on_time_rate : Option Rat
  avg_arr_delay : Option Rat
  on_time_pct : Option Rat
deriving DecidableEq, Repr

/-- The rows of one group_by group: the rows of the table whose
DepHour equals the group key (null keys form a group of their own). -/
def groupRows (fdf : List NRow) (k : Option Int) : List NRow :=
  fdf.filter (fun r => r.DepHour == k)

/-- The per-group aggregation of hour_stats for one DepHour key:
pl.len counts every row of the group, pl.mean skips nulls (none when
the whole group is null), only on_time_rate * 100 is rounded, and
avg_arr_delay is left unrounded.  The source computes on_time_pct as
(on_time_rate * 100).round(1); here the argument is the equal exact
fraction frac (100 * countTrue ots) ots.length. -/
def aggRow (fdf : List NRow) (k : Option Int) : HourRow :=
  let grp := groupRows fdf k
  let ots := grp.filterMap (fun r => r.OnTime)
  { DepHour := k
    flights_n := grp.length
    on_time_rate :=
      if ots = [] then none
      else some (frac (countTrue ots : Int) (ots.length : Int))
    avg_arr_delay := meanQ (grp.filterMap (fun r => r.ArrDelayMinutes))
    on_time_pct :=
      if ots = [] then none
      else some (round1 (frac (100 * (countTrue ots : Int)) (ots.length : Int))) }

/-- The distinct DepHour keys of the table in order of first
appearance, as polars group_by produces one group per distinct key
(a null key is a group of its own). -/
def distinctKeys (fdf : List NRow) : List (Option Int) :=
  fdf.foldl (fun acc r => if r.DepHour ∈ acc then acc else acc ++ [r.DepHour]) []

/-- The ordering sort("DepHour") uses on the group keys: polars sorts
null first by default. -/
def bucketLe (a b : Option Int) : Prop :=
  match a, b with
  | none, _ => True
  | some _, none => False
  | some x, some y => x ≤ y

instance (a b : Option Int) : Decidable (bucketLe a b) :=
  match a, b with
  | none, _ => isTrue trivial
  | some _, none => isFalse (fun h => h)
  | some x, some y => inferInstanceAs (Decidable (x ≤ y))

/-- Strict version of bucketLe, for stating the ordering invariant. -/
def bucketLt (a b : Option Int) : Prop :=
  match a, b with
  | none, none => False
  | none, some _ => True
  | some _, none => False
  | some x, some y => x < y

instance (a b : Option Int) : Decidable (bucketLt a b) :=
  match a, b with
  | none, none => isFalse (fun h => h)
  | none, some _ => isTrue trivial
  | some _, none => isFalse (fun h => h)
  | some x, some y => inferInstanceAs (Decidable (x < y))

/-- Row ordering of the hour_stats output: by DepHour, null first. -/
def hourLe (a b : HourRow) : Prop :=
  bucketLe a.DepHour b.DepHour

instance : DecidableRel hourLe :=
  fun a b => inferInstanceAs (Decidable (bucketLe a.DepHour b.DepHour))

instance : IsTotal HourRow hourLe where
  total a b := by
    unfold hourLe bucketLe
    rcases a.DepHour with _ | x <;> rcases b.DepHour with _ | y <;> simp <;> omega

instance : IsTrans HourRow hourLe where
  trans a b c := by
    unfold hourLe bucketLe
    rcases a.DepHour with _ | x <;> rcases b.DepHour with _ | y <;>
      rcases c.DepHour with _ | z <;> simp <;> omega

/-- Embeds hour_stats: group the filtered table on DepHour, aggregate
each group, and sort the group rows ascending by DepHour. -/
def hour_stats (fdf : List NRow) : List HourRow :=
  ((distinctKeys fdf).map (aggRow fdf)).insertionSort hourLe

/-! Concrete records used by witnesses and counterexamples. -/

/-- A representative source row. -/
def baseRow : Row :=
  { FlightDate := "2024-01-01"
    Operating_Airline := "AA"
    Flight_Number_Operating_Airline := 100
    Origin := "JFK"
    Dest := "LAX"
    CRSDepTime := some 800
    DepTime := some 805
    CRSArrTime := some 1100
    ArrTime := some 1110
    ArrDelayMinutes := some 10
    Cancelled := false }

/-- A row whose arrival delay is missing. -/
def rowNoDelay : Row :=
  { baseRow with ArrDelayMinutes := none }

/-- A row with arrival delay 16. -/
def rowDelay16 : Row :=
  { baseRow with ArrDelayMinutes := some 16 }

/-- A row whose scheduled departure clock value is 2400. -/
def row2400 : Row :=
  { baseRow with CRSDepTime := some 2400 }

/-- A row whose scheduled departure clock value is missing. -/
def rowNoDep : Row :=
  { baseRow with CRSDepTime := none }

/-- The four-flight scenario of the spec: delays 5, 20, null, 0 and
cancellation flags false, false, true, false. -/
def scenarioRows : List Row :=
  [ { baseRow with ArrDelayMinutes := some 5 }
  , { baseRow with ArrDelayMinutes := some 20 }
  , { baseRow with ArrDelayMinutes := none, Cancelled := true }
  , { baseRow with ArrDelayMinutes := some 0 } ]

/-- A one-row table whose only flight is carrier AA, number 101. -/
def tableAA101 : List NRow :=
  load_data [{ baseRow with Flight_Number_Operating_Airline := 101 }]

/-- A one-row table whose only flight departs from LAX. -/
def tableLAX : List NRow :=
  load_data [{ baseRow with Origin := "LAX" }]

/-- A two-row table sharing departure hour 8, one row with delay 10
and one with a missing delay. -/
def twoRowTable : List NRow :=
  load_data [baseRow, rowNoDelay]

/-! Bridge and helper lemmas. -/

/-- frac is ordinary rational division. -/
theorem frac_eq_div (a b : Int) : frac a b = (a : Rat) / (b : Rat) :=
  Rat.divInt_eq_div a b

/-- Claim C1 (amended): the derived OnTime is true iff the arrival
delay is present and at most 15; a missing delay yields a missing
OnTime (null, not false); a present delay d yields the comparison
d ≤ 15. -/
theorem C1_on_time_classification (r : Row) :
    ((normalizeRow r).OnTime = some true ↔ ∃ d, r.ArrDelayMinutes = some d ∧ d ≤ 15)
    ∧ (r.ArrDelayMinutes = none → (normalizeRow r).OnTime = none)
    ∧ (∀ d : Int, r.ArrDelayMinutes = some d →
        (normalizeRow r).OnTime = some (decide (d ≤ 15))) := by
  refine ⟨?_, fun h => by simp [normalizeRow, h], fun d h => by simp [normalizeRow, h]⟩
  cases h : r.ArrDelayMinutes with
  | none => simp [normalizeRow, h]
  | some d => simp [normalizeRow, h]

/-- Claim C1, counterexample to the claim as stated: a missing
arrival delay yields a missing OnTime, not OnTime = false. -/
theorem C1_counterexample :
    (normalizeRow rowNoDelay).OnTime = none
    ∧ (normalizeRow rowNoDelay).OnTime ≠ some false := by decide

/-- Claim C1, witness: delay 10 is on time, delay 16 is not, and a
missing delay gives a missing OnTime. -/
theorem C1_witness :
    (normalizeRow baseRow).OnTime = some true
    ∧ (normalizeRow rowDelay16).OnTime = some false
    ∧ (normalizeRow rowNoDelay).OnTime = none :=
  ⟨(C1_on_time_classification baseRow).1.mpr ⟨10, rfl, by decide⟩,
   by simpa using (C1_on_time_classification rowDelay16).2.2 16 rfl,
   (C1_on_time_classification rowNoDelay).2.1 rfl⟩

/-- Claim C2: for any selection mode that is none of the four
recognized variants, filter_df returns the table unchanged — the
source falls through to the final return df, so it silently skips
filtering instead of failing fast as the spec demands. -/
theorem C2_unrecognized_mode_returns_unfiltered
    (mode orig dest carrier flight : String) (df : List NRow)
    (h1 : mode ≠ "airport") (h2 : mode ≠ "route")
    (h3 : mode ≠ "airline_at_airport") (h4 : mode ≠ "flight") :
    filter_df mode orig dest carrier flight df = df := by
  unfold filter_df
  rw [if_neg h1, if_neg h2, if_neg h3, if_neg h4]

/-- Claim C2, witness: the unrecognized mode string summary returns
the one-row table unchanged. -/
theorem C2_witness :
    filter_df "summary" "JFK" "LAX" "AA" "AA100" (load_data [baseRow]) =
      load_data [baseRow] :=
  C2_unrecognized_mode_returns_unfiltered _ _ _ _ _ _
    (by decide) (by decide) (by decide) (by decide)

/-- Claim C3: a selection that filters to zero rows yields n = 0 with
all three rate fields null, and the hourly aggregate is empty. -/
theorem C3_empty_selection (mode orig dest carrier flight : String) (df : List NRow)
    (h : filter_df mode orig dest carrier flight df = []) :
    compute_metrics (filter_df mode orig dest carrier flight df) =
      { n := 0, on_time_pct := none, avg_delay := none, cancel_rate := none }
    ∧ hour_stats (filter_df mode orig dest carrier flight df) = [] := by
  rw [h]
  exact ⟨rfl, rfl⟩

/-- Claim C3, witness: origin JFK matches nothing in a table whose
only row departs from LAX. -/
theorem C3_witness :
    compute_metrics (filter_df "airport" "JFK" "LAX" "AA" "AA100" tableLAX) =
      { n := 0, on_time_pct := none, avg_delay := none, cancel_rate := none }
    ∧ hour_stats (filter_df "airport" "JFK" "LAX" "AA" "AA100" tableLAX) = [] :=
  C3_empty_selection _ _ _ _ _ _ (by decide)

/-- Claim C5 (amended): each derived minute field is the source clock
value mapped through (v div 100) * 60 + v mod 100, so a missing clock
value stays missing; clock 1515 gives 915 minutes (not the 975 the
spec example states) and clock 800 gives 480. -/
theorem C5_minute_conversion (r : Row) :
    ((normalizeRow r).CRSDepMin = r.CRSDepTime.map (fun v => (v / 100) * 60 + v % 100))
    ∧ ((normalizeRow r).DepMin = r.DepTime.map (fun v => (v / 100) * 60 + v % 100))
    ∧ ((normalizeRow r).CRSArrMin = r.CRSArrTime.map (fun v => (v / 100) * 60 + v % 100))
    ∧ ((normalizeRow r).ArrMin = r.ArrTime.map (fun v => (v / 100) * 60 + v % 100))
    ∧ hhmm_to_minutes 1515 = 915 ∧ hhmm_to_minutes 800 = 480
    ∧ (r.CRSDepTime = none → (normalizeRow r).CRSDepMin = none) :=
  ⟨rfl, rfl, rfl, rfl, by decide, by decide, fun h => by simp [normalizeRow, h]⟩

/-- Claim C5, counterexample to the claim as stated: by the formula
of both the spec and the code, clock value 1515 converts to 915
minutes, not 975. -/
theorem C5_counterexample :
    hhmm_to_minutes 1515 = 915 ∧ hhmm_to_minutes 1515 ≠ 975 := by decide

/-- Claim C5, witness: a missing scheduled departure clock value
yields a missing derived minute field. -/
theorem C5_witness : (normalizeRow rowNoDep).CRSDepMin = none :=
  (C5_minute_conversion rowNoDep).2.2.2.2.2.2 rfl

/-- Claim C8 (amended): when the scheduled departure clock value v is
present, DepHour is its minute conversion divided by 60; the value
lies in 0..23 when v is a valid HHMM clock (nonnegative, hour part at
most 23, minute part at most 59), but not for every present integer:
see the counterexample at 2400. -/
theorem C8_dep_hour_bucket (r : Row) (v : Int) (h : r.CRSDepTime = some v) :
    (normalizeRow r).DepHour = some (hhmm_to_minutes v / 60)
    ∧ (0 ≤ v → v / 100 ≤ 23 → v % 100 ≤ 59 →
        0 ≤ hhmm_to_minutes v / 60 ∧ hhmm_to_minutes v / 60 ≤ 23) := by
  constructor
  · simp [normalizeRow, h]
  · intro h0 hh hm
    unfold hhmm_to_minutes
    omega

/-- Claim C8, counterexample to the claim as stated: the present
clock value 2400 yields bucket 24, outside 0..23. -/
theorem C8_counterexample :
    (normalizeRow row2400).DepHour = some 24 ∧ ¬ ((24 : Int) ≤ 23) := by decide

/-- Claim C8, witness: clock 800 gives bucket 8, inside 0..23. -/
theorem C8_witness :
    (normalizeRow baseRow).DepHour = some (hhmm_to_minutes 800 / 60)
    ∧ 0 ≤ hhmm_to_minutes 800 / 60 ∧ hhmm_to_minutes 800 / 60 ≤ 23 :=
  ⟨(C8_dep_hour_bucket baseRow 800 rfl).1,
   (C8_dep_hour_bucket baseRow 800 rfl).2 (by decide) (by decide) (by decide)⟩

/-- Claim C9: normalization is total and order-preserving — one output
row per input row, equal row counts, and the k-th output is derived
from the k-th input. -/
theorem C9_normalization_total_order_preserving (rows : List Row) :
    (load_data rows).length = rows.length
    ∧ ∀ k : Nat, (load_data rows)[k]? = (rows[k]?).map normalizeRow :=
  ⟨List.length_map rows normalizeRow, fun k => List.getElem?_map normalizeRow rows k⟩

/-- Claim C4: for a non-empty subset, avg_delay is the mean of the
delay values present in the subset (missing delays excluded from both
sum and count), rounded to one decimal, and null when no delay value
is present; on the four-flight scenario of the spec the value is 8.3
(the mean of 5, 20, 0). -/
theorem C4_avg_delay (fdf : List NRow) (hne : fdf ≠ []) :
    (delaysOf fdf ≠ [] →
      (compute_metrics fdf).avg_delay =
        some (round1 (((delaysOf fdf).sum : Rat) / ((delaysOf fdf).length : Rat))))
    ∧ (delaysOf fdf = [] → (compute_metrics fdf).avg_delay = none)
    ∧ (compute_metrics (load_data scenarioRows)).avg_delay = some (frac 83 10) := by
  have hlen : ¬ fdf.length = 0 := by
    simpa [List.length_eq_zero] using hne
  refine ⟨fun hd => ?_, fun hd => ?_, by decide⟩
  · unfold compute_metrics
    rw [if_neg hlen]
    simp only [delaysOf] at hd ⊢
    simp only [meanQ, if_neg hd, Option.map_some', frac_eq_div, Int.cast_natCast]
  · unfold compute_metrics
    rw [if_neg hlen]
    simp only [delaysOf] at hd
    simp [meanQ, hd]

/-- Claim C4, witness: the hypotheses hold on the four-flight
scenario, whose delays 5, 20, null, 0 give the stated mean. -/
theorem C4_witness :
    (compute_metrics (load_data scenarioRows)).avg_delay =
      some (round1 (((delaysOf (load_data scenarioRows)).sum : Rat) /
        ((delaysOf (load_data scenarioRows)).length : Rat))) :=
  (C4_avg_delay (load_data scenarioRows) (by decide)).1 (by decide)

/-- Claim C7: in FlightNumber mode the first two characters of the
selection string are the carrier and the rest is the flight-number
string; a row survives the filter iff it is in the table, its airline
equals the carrier, and its flight number printed in decimal equals
the remainder.  A remainder matching no flight number gives n = 0:
selection AA100 against a table holding only AA 101. -/
theorem C7_flight_number_mode :
    (∀ (orig dest carrier flight : String) (df : List NRow) (r : NRow),
        r ∈ filter_df "flight" orig dest carrier flight df ↔
          (r ∈ df ∧ r.Operating_Airline = flight.take 2
            ∧ toString r.Flight_Number_Operating_Airline = flight.drop 2))
    ∧ (compute_metrics (filter_df "flight" "JFK" "LAX" "AA" "AA100" tableAA101)).n = 0 := by
  refine ⟨?_, by decide⟩
  intro orig dest carrier flight df r
  show r ∈ df.filter _ ↔ _
  simp [List.mem_filter, and_assoc]

/-- Folding the key-collection step of distinctKeys preserves absence
of duplicate keys. -/
theorem distinctKeys_foldl_nodup (l : List NRow) (acc : List (Option Int)) (h : acc.Nodup) :
    (l.foldl (fun acc r => if r.DepHour ∈ acc then acc else acc ++ [r.DepHour]) acc).Nodup := by
  induction l generalizing acc with
  | nil => simpa using h
  | cons r l ih =>
    rw [List.foldl_cons]
    apply ih
    by_cases hm : r.DepHour ∈ acc
    · simpa [hm] using h
    · rw [if_neg hm]
      simp [List.nodup_append, h, hm]

/-- The keys distinctKeys collects are pairwise distinct. -/
theorem distinctKeys_nodup (fdf : List NRow) : (distinctKeys fdf).Nodup :=
  distinctKeys_foldl_nodup fdf [] (by simp)

/-- Every key already in the accumulator, and the DepHour of every
remaining row, survives the key-collection fold. -/
theorem mem_distinctKeys_foldl (l : List NRow) (acc : List (Option Int)) (k : Option Int)
    (h : k ∈ acc ∨ ∃ r ∈ l, r.DepHour = k) :
    k ∈ l.foldl (fun acc r => if r.DepHour ∈ acc then acc else acc ++ [r.DepHour]) acc := by
  induction l generalizing acc with
  | nil =>
    rcases h with h | ⟨r, hr, _⟩
    · simpa using h
    · simp at hr
  | cons r l ih =>
    rw [List.foldl_cons]
    apply ih
    rcases h with hk | ⟨r', hr', hk⟩
    · left
      by_cases hm : r.DepHour ∈ acc <;> simp [hm, hk]
    · rcases List.mem_cons.mp hr' with rfl | hr'
      · subst hk
        left
        by_cases hm : r'.DepHour ∈ acc <;> simp [hm]
      · exact Or.inr ⟨r', hr', hk⟩

/-- The DepHour of every table row appears among the distinct keys. -/
theorem mem_distinctKeys (fdf : List NRow) (r : NRow) (h : r ∈ fdf) :
    r.DepHour ∈ distinctKeys fdf :=
  mem_distinctKeys_foldl fdf [] r.DepHour (Or.inr ⟨r, h, rfl⟩)

/-- Sorting permutes, so membership in hour_stats is membership among
the aggregated group rows. -/
theorem hour_stats_mem_iff (fdf : List NRow) (hr : HourRow) :
    hr ∈ hour_stats fdf ↔ hr ∈ (distinctKeys fdf).map (aggRow fdf) :=
  (List.perm_insertionSort hourLe ((distinctKeys fdf).map (aggRow fdf))).mem_iff

/-- The group key field of an aggregated row. -/
theorem aggRow_DepHour (fdf : List NRow) (k : Option Int) :
    (aggRow fdf k).DepHour = k := rfl

/-- The flight count field of an aggregated row. -/
theorem aggRow_flights_n (fdf : List NRow) (k : Option Int) :
    (aggRow fdf k).flights_n = (groupRows fdf k).length := rfl

/-- The rounded on-time percentage field of an aggregated row. -/
theorem aggRow_on_time_pct (fdf : List NRow) (k : Option Int) :
    (aggRow fdf k).on_time_pct =
      (if (groupRows fdf k).filterMap (fun r => r.OnTime) = [] then none
       else some (round1 (frac
         (100 * (countTrue ((groupRows fdf k).filterMap (fun r => r.OnTime)) : Int))
         (((groupRows fdf k).filterMap (fun r => r.OnTime)).length : Int)))) := rfl

/-- The average-delay field of an aggregated row. -/
theorem aggRow_avg_arr_delay (fdf : List NRow) (k : Option Int) :
    (aggRow fdf k).avg_arr_delay = meanQ (delaysOf (groupRows fdf k)) := rfl

/-- Claim C6 (amended): every hour_stats row aggregates its own
DepHour group — the flight count is the row count of the group; the
on-time percentage is 100 times the count of on-time rows over the
count of rows whose OnTime is present (nulls excluded from the
denominator, not the bucket row count), rounded to one decimal, and
null when no OnTime is present; the average arrival delay is the mean
of the delays present in the group, left unrounded, and null when no
delay is present.  Every DepHour present in the subset has a row. -/
theorem C6_hourly_aggregate (fdf : List NRow) :
    (∀ hr ∈ hour_stats fdf,
      hr.flights_n = (groupRows fdf hr.DepHour).length
      ∧ hr.on_time_pct =
          (if (groupRows fdf hr.DepHour).filterMap (fun r => r.OnTime) = [] then none
           else some (round1 (100 *
             ((countTrue ((groupRows fdf hr.DepHour).filterMap (fun r => r.OnTime))) : Rat) /
             (((groupRows fdf hr.DepHour).filterMap (fun r => r.OnTime)).length : Rat))))
      ∧ hr.avg_arr_delay =
          (if delaysOf (groupRows fdf hr.DepHour) = [] then none
           else some (((delaysOf (groupRows fdf hr.DepHour)).sum : Rat) /
             ((delaysOf (groupRows fdf hr.DepHour)).length : Rat))))
    ∧ (∀ r ∈ fdf, ∃ hr ∈ hour_stats fdf, hr.DepHour = r.DepHour) := by
  constructor
  · intro hr hmem
    obtain ⟨k, hk, rfl⟩ := List.mem_map.mp ((hour_stats_mem_iff fdf hr).mp hmem)
    rw [aggRow_DepHour]
    refine ⟨aggRow_flights_n fdf k, ?_, ?_⟩
    · rw [aggRow_on_time_pct]
      by_cases hots : (groupRows fdf k).filterMap (fun r => r.OnTime) = []
      · rw [if_pos hots, if_pos hots]
      · rw [if_neg hots, if_neg hots]
        congr 1
        rw [frac_eq_div]
        push_cast
        ring
    · rw [aggRow_avg_arr_delay]
      by_cases hds : delaysOf (groupRows fdf k) = []
      · rw [if_pos hds]
        simp [meanQ, hds]
      · rw [if_neg hds]
        simp only [meanQ, if_neg hds, frac_eq_div, Int.cast_natCast]
  · intro r hrm
    exact ⟨aggRow fdf r.DepHour,
      (hour_stats_mem_iff fdf _).mpr
        (List.mem_map.mpr ⟨r.DepHour, mem_distinctKeys fdf r hrm, rfl⟩),
      aggRow_DepHour fdf r.DepHour⟩

/-- Claim C6, counterexample to the claim as stated: in a bucket of
two rows where one delay is missing, the code computes an on-time
percentage of 100 (denominator 1, the non-null OnTime count) where
the claim predicts 100 × 1 / 2 = 50 (denominator 2, the bucket row
count). -/
theorem C6_counterexample :
    (hour_stats twoRowTable).map (fun hr => hr.flights_n) = [2]
    ∧ (hour_stats twoRowTable).map (fun hr => hr.on_time_pct) = [some 100]
    ∧ (hour_stats twoRowTable).map (fun hr => hr.on_time_pct) ≠ [some 50] := by decide

/-- Claim C6, witness: the amended field equations applied to the
aggregated hour-8 row of the two-row table. -/
theorem C6_witness :
    (aggRow twoRowTable (some 8)).flights_n =
      (groupRows twoRowTable ((aggRow twoRowTable (some 8)).DepHour)).length :=
  ((C6_hourly_aggregate twoRowTable).1 (aggRow twoRowTable (some 8)) (by decide)).1

/-- A weak bucket order together with distinct buckets gives the
strict bucket order. -/
theorem bucketLt_of_le_of_ne (a b : Option Int) (hle : bucketLe a b) (hne : a ≠ b) :
    bucketLt a b := by
  rcases a with _ | x <;> rcases b with _ | y <;> simp_all [bucketLe, bucketLt] <;> omega

/-- Claim C10: the hourly aggregate rows are strictly ascending by
bucket, with no duplicate bucket values. -/
theorem C10_buckets_strictly_ascending (fdf : List NRow) :
    (hour_stats fdf).Pairwise (fun a b => bucketLt a.DepHour b.DepHour)
    ∧ (hour_stats fdf).Pairwise (fun a b => a.DepHour ≠ b.DepHour) := by
  have hkeys : ((distinctKeys fdf).map (aggRow fdf)).Pairwise
      (fun a b => a.DepHour ≠ b.DepHour) := by
    refine List.pairwise_map.mpr ((distinctKeys_nodup fdf).imp ?_)
    intro a b hne h
    exact hne ((aggRow_DepHour fdf a) ▸ (aggRow_DepHour fdf b) ▸ h)
  have hne : (hour_stats fdf).Pairwise (fun a b => a.DepHour ≠ b.DepHour) :=
    ((List.perm_insertionSort hourLe ((distinctKeys fdf).map (aggRow fdf))).pairwise_iff
      (fun {a b} h => Ne.symm h)).mpr hkeys
  have hsorted : (hour_stats fdf).Pairwise hourLe :=
    List.sorted_insertionSort hourLe ((distinctKeys fdf).map (aggRow fdf))
  refine ⟨?_, hne⟩
  exact (hsorted.and hne).imp (fun h => bucketLt_of_le_of_ne _ _ h.1 h.2)

end FlightReliability
